import Mathlib

/-!
Verification of the cysignals repository against its specification.

Part 1 embeds the pure Python helpers that ship with the repository:
the per-file doctest child process in rundoctests.py, the option
rewriting of SkipByOsDocTestParser in rundoctests.py, and get_msvcr in
winutil/patchdistutils.py.

Part 2 models the signal engine (protected-region stack, signal
dispatch, pending events, crash reporter, timeout subsystem) from the
specification, since the native implementation is not part of the
Python sources embedded here.
-/

namespace PyStr

/-- Model of Python str.find restricted to its successful geometry:
first index at which the needle occurs as a contiguous sublist of the
haystack, none when absent (Python returns -1 in that case). -/
def findSub (needle : List Char) : List Char → Option Nat
  | [] => if needle.isPrefixOf ([] : List Char) then some 0 else none
  | c :: t =>
    if needle.isPrefixOf (c :: t) then some 0
    else (findSub needle t).map (fun k => k + 1)

/-- The needle occurs somewhere in the haystack. -/
def occursIn (needle hay : String) : Prop :=
  (findSub needle.data hay.data).isSome = true

instance (needle hay : String) : Decidable (occursIn needle hay) := by
  unfold occursIn; infer_instance

theorem findSub_isSome_of_split (needle pre post : List Char) :
    (findSub needle (pre ++ (needle ++ post))).isSome = true := by
  induction pre with
  | nil =>
    have hpre : needle.isPrefixOf (needle ++ post) = true := by
      rw [List.isPrefixOf_iff_prefix]; exact List.prefix_append needle post
    simp only [List.nil_append]
    cases hn : needle ++ post with
    | nil => rw [hn] at hpre; simp [findSub, hpre]
    | cons c t => rw [hn] at hpre; simp [findSub, hpre]
  | cons c t ih =>
    simp only [List.cons_append, findSub, List.append_eq]
    split
    · rfl
    · simpa using ih

theorem occursIn_of_split (needle pre post : String) :
    occursIn needle (pre ++ (needle ++ post)) := by
  unfold occursIn
  rw [String.data_append, String.data_append]
  exact findSub_isSome_of_split needle.data pre.data post.data

end PyStr

namespace Rundoctests

/-- Result of running the body of the try block in testfile of
rundoctests.py: either doctest.testfile returned a failure count, or
an exception escaped the body (from the darwin setup call or from
doctest.testfile itself). -/
inductive DoctestOutcome where
  | ok : Nat → DoctestOutcome
  | raised : DoctestOutcome
deriving DecidableEq

/-- The try body of testfile: when doctest.testfile returns zero
failures the body calls os._exit(0), which terminates the process at
once and so bypasses the finally clause; in every other case the body
finishes (normally or by exception) without exiting.  some c means the
body itself terminated the process with exit status c. -/
def tryBodyExit : DoctestOutcome → Option Nat
  | DoctestOutcome.ok f => if f = 0 then some 0 else none
  | DoctestOutcome.raised => none

/-- testfile(file) from rundoctests.py as a map from the outcome of
its try body to the exit status of the child process: if the try body
already exited, that status stands; otherwise the finally clause runs
os._exit(23). -/
def testfile (o : DoctestOutcome) : Nat :=
  match tryBodyExit o with
  | some c => c
  | none => 23

/-- Flag value of doctest SKIP. -/
def OPTIONFLAG_SKIP : Nat := 16

/-- Flag value registered for SKIP_WINDOWS in rundoctests.py. -/
def flag_skip_windows : Nat := 2048

/-- Flag value registered for SKIP_POSIX in rundoctests.py. -/
def flag_skip_posix : Nat := 4096

/-- Python dict assignment options[k] = v on a flag-to-bool dict. -/
def dictSet (d : Nat → Option Bool) (k : Nat) (v : Bool) : Nat → Option Bool :=
  fun x => if x = k then some v else d x

/-- Python del options[k] on a flag-to-bool dict. -/
def dictDel (d : Nat → Option Bool) (k : Nat) : Nat → Option Bool :=
  fun x => if x = k then none else d x

/-- SkipByOsDocTestParser._find_options from rundoctests.py: starting
from the options found by the base DocTestParser, on Windows a present
SKIP_WINDOWS flag is turned into SKIP, and off Windows a present
SKIP_POSIX flag is turned into SKIP; isNT models os.name being nt. -/
def find_options (isNT : Bool) (base : Nat → Option Bool) : Nat → Option Bool :=
  let o1 :=
    match base flag_skip_windows with
    | some v => if isNT then dictDel (dictSet base OPTIONFLAG_SKIP v) flag_skip_windows else base
    | none => base
  match o1 flag_skip_posix with
  | some v => if isNT then o1 else dictDel (dictSet o1 OPTIONFLAG_SKIP v) flag_skip_posix
  | none => o1

end Rundoctests

namespace Patchdistutils

/-- Possible results of get_msvcr in winutil/patchdistutils.py: the
implicit None return, a returned library list, or a raised ValueError
carrying the unknown version code. -/
inductive MsvcrResult where
  | retNone : MsvcrResult
  | libs : List String → MsvcrResult
  | valueError : String → MsvcrResult
deriving DecidableEq

/-- The literal searched for in sys.version. -/
def mscNeedle : List Char := "MSC v.".data

/-- The four-character slice sys.version[pos+6 : pos+10]. -/
def mscVerAt (version : List Char) (pos : Nat) : String :=
  String.mk ((version.drop (pos + 6)).take 4)

/-- get_msvcr from winutil/patchdistutils.py, with sys.version passed
in as a list of characters. -/
def get_msvcr (version : List Char) : MsvcrResult :=
  match PyStr.findSub mscNeedle version with
  | none => MsvcrResult.retNone
  | some pos =>
    let msc_ver := mscVerAt version pos
    if msc_ver = "1300" then MsvcrResult.libs ["msvcr70"]
    else if msc_ver = "1310" then MsvcrResult.libs ["msvcr71"]
    else if msc_ver = "1400" then MsvcrResult.libs ["msvcr80"]
    else if msc_ver = "1500" then MsvcrResult.libs ["msvcr90"]
    else if msc_ver = "1600" then MsvcrResult.libs ["msvcr100"]
    else if msc_ver = "1700" then MsvcrResult.libs ["msvcr110"]
    else if msc_ver = "1800" then MsvcrResult.libs ["msvcr120"]
    else if msc_ver = "1900" then MsvcrResult.libs []
    else MsvcrResult.valueError msc_ver

end Patchdistutils

namespace Cysignals

/-- Modelled from the spec: classification of a signal kind handled by
the dispatch of section 4.2; the deferrable versus fatal mapping is
policy and is carried by each signal value. -/
inductive SigClass where
  | deferrable : SigClass
  | fatal : SigClass
deriving DecidableEq

/-- Modelled from the spec: a signal of interest, with its number,
name and classification. -/
structure Signal where
  num : Nat
  name : String
  cls : SigClass
deriving DecidableEq

/-- Modelled from the spec: a JumpPoint (section 3): the nesting depth
at capture time and the slot recording which event caused the jump. -/
structure JumpPoint where
  depth : Nat
  cause : Option Nat
deriving DecidableEq

/-- Modelled from the spec: a CrashLog record (section 3): process id,
signal number and name, timestamp, and a textual backtrace, stored in
a uniquely named file. -/
structure CrashLog where
  fileName : String
  pid : Nat
  signame : String
  signum : Nat
  timestamp : String
  backtrace : String
deriving DecidableEq

/-- How the modelled process ended: through the default disposition of
a signal, or through an abort on a detected programming error. -/
inductive TerminationKind where
  | bySignal : Nat → TerminationKind
  | abortedWith : String → TerminationKind
deriving DecidableEq

/-- Modelled from the spec: the per-thread engine state: the
RegionStack, the coalescing PendingEvent slots, the signal mask, the
timeout subsystem timer, the crash logs written so far, the conditions
raised to the caller in order, the last jump taken, and whether the
process has terminated. -/
structure EngineState where
  capacity : Nat
  regions : List JumpPoint
  pending : List Nat
  masked : Bool
  timerArmed : Bool
  repeatTimer : Bool
  crashLogs : List CrashLog
  raised : List Nat
  lastJump : Option JumpPoint
  terminated : Option TerminationKind
  pid : Nat
  clock : Nat
deriving DecidableEq

/-- Standard temporary-files location used when no directory is
configured. -/
def defaultTmpDir : String := "/tmp"

/-- Modelled from the spec: the crash-log directory is read from the
CYSIGNALS_CRASH_LOGS environment variable at startup, defaulting to a
standard temporary-files location (section 6). -/
def crashDir (env : String → Option String) : String :=
  match env "CYSIGNALS_CRASH_LOGS" with
  | some d => d
  | none => defaultTmpDir

/-- Decimal rendering of a nonnegative counter (empty for zero), used
to give each crash log a unique file name. -/
def mkIdxStr (idx : Nat) : String :=
  String.mk (((Nat.digits 10 idx).reverse).map Nat.digitChar)

/-- Unique crash-log file name for the idx-th crash of a process. -/
def mkCrashName (pid idx : Nat) : String :=
  "cysignals_crash_" ++ mkIdxStr pid ++ "_" ++ mkIdxStr idx ++ ".log"

/-- Modelled from the spec: ISO-8601-style timestamp derived from the
abstract clock of the state. -/
def isoTimestamp (clock : Nat) : String :=
  "1970-01-01T00:00:00+" ++ mkIdxStr clock

/-- Modelled from the spec: best-effort backtrace text written by the
crash reporter (section 4.4), possibly produced by an external
debugger process; always a non-empty text block. -/
def backtraceFor (sig : Signal) : String :=
  "Stack backtrace for " ++ (sig.name ++ " (best effort)")

/-- Process id field of the rendered crash log. -/
def processField (log : CrashLog) : String :=
  "Process " ++ (Nat.repr log.pid ++ "\n")

/-- Signal identity field of the rendered crash log. -/
def signalField (log : CrashLog) : String :=
  "Signal " ++ (log.signame ++ (" number " ++ (Nat.repr log.signum ++ "\n")))

/-- Timestamp field of the rendered crash log. -/
def timeField (log : CrashLog) : String :=
  log.timestamp ++ "\n"

/-- Modelled from the spec: the plain-text content of a crash log,
fields in order: process id, signal identity, timestamp, backtrace
text block (section 6). -/
def renderCrashLog (log : CrashLog) : String :=
  processField log ++ signalField log ++ timeField log ++ log.backtrace

/-- Modelled from the spec: the crash reporter (section 4.4): writes
one uniquely named log file containing process id, signal identity,
timestamp and a best-effort backtrace, then re-raises the signal with
default disposition so the process terminates with the exit status of
the signal. -/
def crashAndTerminate (sig : Signal) (s : EngineState) : EngineState :=
  let log : CrashLog := {
    fileName := mkCrashName s.pid s.crashLogs.length
    pid := s.pid
    signame := sig.name
    signum := sig.num
    timestamp := isoTimestamp s.clock
    backtrace := backtraceFor sig }
  { s with crashLogs := s.crashLogs ++ [log],
           terminated := some (TerminationKind.bySignal sig.num) }

/-- Modelled from the spec: coalescing into PendingEvent (section 3):
a repeated signal of a kind already pending does not queue. -/
def recordPending (p : List Nat) (n : Nat) : List Nat :=
  if n ∈ p then p else p ++ [n]

/-- Modelled from the spec: a detected programming error is reported
as loudly as possible: the process aborts with a diagnostic
(section 7d). -/
def abortState (msg : String) (s : EngineState) : EngineState :=
  { s with terminated := some (TerminationKind.abortedWith msg) }

/-- Modelled from the spec: enter_region (section 4.1): when a
deferred event is pending it is consumed and raised (the first
recorded cause takes priority and the rest are dropped, section 4.2)
and no region is entered; otherwise a JumpPoint at the new depth is
pushed, unless the fixed capacity would be exceeded, which is a
fatal programming error (section 7d). -/
def enter_region (s : EngineState) : EngineState × Option Nat :=
  if s.terminated.isSome then (s, none)
  else
    match s.pending with
    | c :: _ => ({ s with pending := [], raised := s.raised ++ [c] }, none)
    | [] =>
      if s.capacity ≤ s.regions.length then
        (abortState "enter_region: stack capacity exceeded" s, none)
      else
        ({ s with regions := { depth := s.regions.length + 1, cause := none } :: s.regions },
         some (s.regions.length + 1))

/-- Modelled from the spec: exit_region (section 4.1): pops the top
JumpPoint when the token matches the top; a token whose region was
already consumed by a signal-triggered jump is a no-op; any other
mismatch is a reported programming error. -/
def exit_region (tok : Nat) (s : EngineState) : EngineState :=
  if s.terminated.isSome then s
  else
    match s.regions with
    | [] => s
    | jp :: rest =>
      if jp.depth = tok then { s with regions := rest }
      else if jp.depth < tok then s
      else abortState "exit_region: token is not the current top" s

/-- Observable nesting depth (section 4.1). -/
def current_depth (s : EngineState) : Nat := s.regions.length

/-- Modelled from the spec: signal handler dispatch (section 4.2): in
a protected unmasked state any relevant signal records its cause in
the top JumpPoint, pops it, and the recorded cause is translated into
the raised condition; a deferrable signal arriving masked or with no
open region coalesces into PendingEvent; a fatal fault with no open
region escalates to the crash reporter, which does not return. -/
def deliver (sig : Signal) (s : EngineState) : EngineState :=
  if s.terminated.isSome then s
  else
    match s.regions with
    | [] =>
      match sig.cls with
      | SigClass.deferrable => { s with pending := recordPending s.pending sig.num }
      | SigClass.fatal => crashAndTerminate sig s
    | jp :: rest =>
      if s.masked = true ∧ sig.cls = SigClass.deferrable then
        { s with pending := recordPending s.pending sig.num }
      else
        { s with regions := rest,
                 lastJump := some { jp with cause := some sig.num },
                 raised := s.raised ++ [sig.num] }

/-- Signal number of the real-time alarm used by the timeout
subsystem. -/
def SIGALRM_NUM : Nat := 14

/-- The alarm signal delivered by the timeout subsystem timer. -/
def alarmSignal : Signal :=
  { num := SIGALRM_NUM, name := "SIGALRM", cls := SigClass.deferrable }

/-- Modelled from the spec: arm(seconds, repeat) of the timeout
subsystem (sections 4.5 and 6); nonpositive seconds fail validation
rather than arming an immediate-fire timer. -/
def alarm_arm (seconds : Int) (rep : Bool) (s : EngineState) : EngineState × Bool :=
  if seconds ≤ 0 then (s, false)
  else ({ s with timerArmed := true, repeatTimer := rep }, true)

/-- Modelled from the spec: cancel() of the timeout subsystem (section
4.5): disarms the timer and also clears any PendingEvent already
recorded for the timeout signal, so disarming guarantees no late
delivery. -/
def alarm_cancel (s : EngineState) : EngineState :=
  { s with timerArmed := false, repeatTimer := false,
           pending := s.pending.filter (fun n => n != SIGALRM_NUM) }

/-- Modelled from the spec: expiry of the armed real-time timer, which
delivers the alarm signal through the ordinary dispatch of section
4.2; a disarmed timer never fires. -/
def timer_fire (s : EngineState) : EngineState :=
  if s.timerArmed = true then deliver alarmSignal { s with timerArmed := s.repeatTimer }
  else s

/-- One engine operation, for reasoning about operation sequences. -/
inductive Op where
  | enter : Op
  | exitR : Nat → Op
  | deliverSig : Signal → Op
  | fire : Op
  | armT : Int → Bool → Op
  | cancelT : Op
deriving DecidableEq

/-- Effect of one operation on the engine state. -/
def runOp (s : EngineState) : Op → EngineState
  | Op.enter => (enter_region s).1
  | Op.exitR tok => exit_region tok s
  | Op.deliverSig sig => deliver sig s
  | Op.fire => timer_fire s
  | Op.armT sec rep => (alarm_arm sec rep s).1
  | Op.cancelT => alarm_cancel s

/-- Effect of a sequence of operations on the engine state. -/
def run (ops : List Op) (s : EngineState) : EngineState := ops.foldl runOp s

/-- Operations that neither re-arm the timeout nor deliver the alarm
signal from outside the timeout subsystem. -/
def opSafe : Op → Bool
  | Op.armT _ _ => false
  | Op.deliverSig sig => sig.num != SIGALRM_NUM
  | _ => true

/-- Region protocol operations for well-nested sequences. -/
inductive ROp where
  | enter : ROp
  | exitR : Nat → ROp
deriving DecidableEq

/-- Effect of one region protocol operation. -/
def runROp (s : EngineState) : ROp → EngineState
  | ROp.enter => (enter_region s).1
  | ROp.exitR tok => exit_region tok s

/-- Effect of a sequence of region protocol operations. -/
def runR (ops : List ROp) (s : EngineState) : EngineState := ops.foldl runROp s

/-- Well-nested enter/exit sequences starting at depth d and staying
within capacity cap, each exit passing the token that its matching
enter returned. -/
inductive Nested (cap : Nat) : Nat → List ROp → Prop where
  | nil (d : Nat) : Nested cap d []
  | wrap (d : Nat) (l : List ROp) : d < cap → Nested cap (d + 1) l →
      Nested cap d (ROp.enter :: (l ++ [ROp.exitR (d + 1)]))
  | app (d : Nat) (l1 l2 : List ROp) : Nested cap d l1 → Nested cap d l2 →
      Nested cap d (l1 ++ l2)

/-- Depths recorded in the RegionStack are the nesting levels in
decreasing order: the JumpPoint at position i has depth length - i. -/
def wellFormed (s : EngineState) : Prop :=
  ∀ i : Fin s.regions.length, (s.regions.get i).depth = s.regions.length - i.val

/-- The crash-log files written so far follow the unique naming
scheme, the i-th carrying the i-th name. -/
def logsWellNamed (s : EngineState) : Prop :=
  ∀ i : Fin s.crashLogs.length, (s.crashLogs.get i).fileName = mkCrashName s.pid i.val

/-- Number of alarm conditions among the raised conditions. -/
def countAlarm (l : List Nat) : Nat := l.count SIGALRM_NUM

end Cysignals

namespace PyStr

theorem occursIn_of_eq (needle hay : String) (pre post : List Char)
    (h : hay.data = pre ++ (needle.data ++ post)) : occursIn needle hay := by
  unfold occursIn
  rw [h]
  exact findSub_isSome_of_split needle.data pre post

theorem string_eq_of_data_eq (a b : String) (h : a.data = b.data) : a = b := by
  cases a; cases b; exact congrArg String.mk h

end PyStr

namespace Cysignals

theorem digitChar_inj_lt : ∀ a < 10, ∀ b < 10, Nat.digitChar a = Nat.digitChar b → a = b := by
  decide

theorem map_digitChar_inj : ∀ (l1 l2 : List Nat), (∀ d ∈ l1, d < 10) → (∀ d ∈ l2, d < 10) →
    l1.map Nat.digitChar = l2.map Nat.digitChar → l1 = l2
  | [], [], _, _, _ => rfl
  | [], _ :: _, _, _, h => by simp at h
  | _ :: _, [], _, _, h => by simp at h
  | a :: l1, b :: l2, h1, h2, h => by
    simp only [List.map_cons, List.cons.injEq] at h
    have ha : a < 10 := h1 a (List.mem_cons_self a l1)
    have hb : b < 10 := h2 b (List.mem_cons_self b l2)
    have hab : a = b := digitChar_inj_lt a ha b hb h.1
    have htl : l1 = l2 :=
      map_digitChar_inj l1 l2 (fun d hd => h1 d (List.mem_cons_of_mem a hd))
        (fun d hd => h2 d (List.mem_cons_of_mem b hd)) h.2
    rw [hab, htl]

theorem mkIdxStr_inj : Function.Injective mkIdxStr := by
  intro a b h
  have hdata : ((Nat.digits 10 a).reverse).map Nat.digitChar
      = ((Nat.digits 10 b).reverse).map Nat.digitChar := congrArg String.data h
  have hrev : (Nat.digits 10 a).reverse = (Nat.digits 10 b).reverse := by
    refine map_digitChar_inj _ _ ?_ ?_ hdata
    · intro d hd
      exact Nat.digits_lt_base (by norm_num) (List.mem_reverse.mp hd)
    · intro d hd
      exact Nat.digits_lt_base (by norm_num) (List.mem_reverse.mp hd)
  have hdig : Nat.digits 10 a = Nat.digits 10 b := List.reverse_injective hrev
  have := congrArg (Nat.ofDigits 10) hdig
  simpa [Nat.ofDigits_digits] using this

theorem mkCrashName_inj_idx (pid : Nat) : Function.Injective (mkCrashName pid) := by
  intro a b h
  have hd := congrArg String.data h
  simp only [mkCrashName, String.data_append, List.append_assoc] at hd
  have h1 := List.append_cancel_left hd
  have h2 := List.append_cancel_left h1
  have h3 := List.append_cancel_left h2
  have h4 := List.append_cancel_right h3
  exact mkIdxStr_inj (PyStr.string_eq_of_data_eq _ _ h4)

theorem crashName_fresh (s : EngineState) (hnames : logsWellNamed s) :
    mkCrashName s.pid s.crashLogs.length ∉ s.crashLogs.map CrashLog.fileName := by
  intro hmem
  rcases List.mem_map.mp hmem with ⟨log, hlog, hname⟩
  rcases List.mem_iff_get.mp hlog with ⟨i, hi⟩
  have := hnames i
  rw [hi, hname] at this
  have hidx : s.crashLogs.length = i.val := mkCrashName_inj_idx s.pid this
  have hlt := i.isLt
  omega

theorem recordPending_not_mem (p : List Nat) (n m : Nat) (hm : m ∉ p) (hmn : m ≠ n) :
    m ∉ recordPending p n := by
  unfold recordPending
  split
  · exact hm
  · intro hmem
    rcases List.mem_append.mp hmem with h | h
    · exact hm h
    · exact hmn (List.mem_singleton.mp h)

theorem runR_append (l1 l2 : List ROp) (s : EngineState) :
    runR (l1 ++ l2) s = runR l2 (runR l1 s) := by
  simp [runR, List.foldl_append]

theorem run_cons (op : Op) (ops : List Op) (s : EngineState) :
    run (op :: ops) s = run ops (runOp s op) := rfl

theorem enter_region_push (s : EngineState) (ht : s.terminated = none)
    (hp : s.pending = []) (hcap : s.regions.length < s.capacity) :
    enter_region s =
      ({ s with regions := { depth := s.regions.length + 1, cause := none } :: s.regions },
       some (s.regions.length + 1)) := by
  simp [enter_region, ht, hp, Nat.not_le.mpr hcap]

theorem exit_region_pop (s : EngineState) (jp : JumpPoint) (rest : List JumpPoint)
    (ht : s.terminated = none) (hr : s.regions = jp :: rest) :
    exit_region jp.depth s = { s with regions := rest } := by
  simp [exit_region, ht, hr]

theorem nested_runR {cap d : Nat} {l : List ROp} (h : Nested cap d l) :
    ∀ s : EngineState, s.capacity = cap → s.pending = [] → s.terminated = none →
      s.regions.length = d → runR l s = s := by
  induction h with
  | nil d => intro s _ _ _ _; rfl
  | wrap d l hd hl ih =>
    intro s hcap hp ht hlen
    have hlt : s.regions.length < s.capacity := by rw [hlen, hcap]; exact hd
    have hpush := enter_region_push s ht hp hlt
    have hs1 : runROp s ROp.enter
        = { s with regions := { depth := s.regions.length + 1, cause := none } :: s.regions } := by
      simp [runROp, hpush]
    have hstep : runR (ROp.enter :: (l ++ [ROp.exitR (d + 1)])) s
        = runR (l ++ [ROp.exitR (d + 1)]) (runROp s ROp.enter) := rfl
    have hih := ih { s with regions := { depth := s.regions.length + 1, cause := none } :: s.regions }
      (by simp [hcap]) (by simp [hp]) (by simp [ht]) (by simp [hlen])
    have hpop := exit_region_pop
      { s with regions := { depth := s.regions.length + 1, cause := none } :: s.regions }
      { depth := s.regions.length + 1, cause := none } s.regions (by simp [ht]) (by simp)
    rw [hstep, hs1, runR_append, hih, ← hlen]
    exact hpop
  | app d l1 l2 h1 h2 ih1 ih2 =>
    intro s hcap hp ht hlen
    rw [runR_append, ih1 s hcap hp ht hlen, ih2 s hcap hp ht hlen]

end Cysignals

namespace Cysignals

theorem opSafe_preserves (s : EngineState) (op : Op) (hop : opSafe op = true)
    (harm : s.timerArmed = false) (hpend : SIGALRM_NUM ∉ s.pending) :
    (runOp s op).timerArmed = false ∧ SIGALRM_NUM ∉ (runOp s op).pending ∧
      countAlarm (runOp s op).raised = countAlarm s.raised := by
  cases op with
  | enter =>
    cases hterm : s.terminated with
    | some t => simp [runOp, enter_region, hterm, harm, hpend]
    | none =>
      cases hpd : s.pending with
      | cons c rest =>
        have hc : c ≠ SIGALRM_NUM := by
          intro he
          rw [hpd] at hpend
          exact hpend (he ▸ List.mem_cons_self c rest)
        simp [runOp, enter_region, hterm, hpd, harm, countAlarm, List.count_append,
          List.count_singleton', hc]
      | nil =>
        by_cases hcap : s.capacity ≤ s.regions.length
        · simp [runOp, enter_region, abortState, hterm, hpd, hcap, harm, countAlarm]
        · simp [runOp, enter_region, hterm, hpd, hcap, harm, countAlarm]
  | exitR tok =>
    cases hterm : s.terminated with
    | some t => simp [runOp, exit_region, hterm, harm, hpend]
    | none =>
      cases hreg : s.regions with
      | nil => simp [runOp, exit_region, hterm, hreg, harm, hpend]
      | cons jp rest =>
        by_cases h1 : jp.depth = tok
        · simp [runOp, exit_region, hterm, hreg, h1, harm, hpend, countAlarm]
        · by_cases h2 : jp.depth < tok
          · simp [runOp, exit_region, hterm, hreg, h1, h2, harm, hpend, countAlarm]
          · simp [runOp, exit_region, abortState, hterm, hreg, h1, h2, harm, hpend, countAlarm]
  | deliverSig sig =>
    have hne : sig.num ≠ SIGALRM_NUM := by simpa [opSafe, bne_iff_ne] using hop
    cases hterm : s.terminated with
    | some t => simp [runOp, deliver, hterm, harm, hpend]
    | none =>
      cases hreg : s.regions with
      | nil =>
        cases hcls : sig.cls with
        | deferrable =>
          refine ⟨?_, ?_, ?_⟩
          · simp [runOp, deliver, hterm, hreg, hcls, harm]
          · simp only [runOp, deliver, hterm, hreg, hcls]
            simpa using recordPending_not_mem s.pending sig.num SIGALRM_NUM hpend (Ne.symm hne)
          · simp [runOp, deliver, hterm, hreg, hcls, countAlarm]
        | fatal =>
          simp [runOp, deliver, crashAndTerminate, hterm, hreg, hcls, harm, hpend, countAlarm]
      | cons jp rest =>
        by_cases hmd : s.masked = true ∧ sig.cls = SigClass.deferrable
        · refine ⟨?_, ?_, ?_⟩
          · simp [runOp, deliver, hterm, hreg, hmd, harm]
          · simp only [runOp, deliver, hterm, hreg, hmd, if_true]
            simpa using recordPending_not_mem s.pending sig.num SIGALRM_NUM hpend (Ne.symm hne)
          · simp [runOp, deliver, hterm, hreg, hmd, countAlarm]
        · simp [runOp, deliver, hterm, hreg, hmd, harm, hpend, countAlarm,
            List.count_append, List.count_singleton', Ne.symm hne]
  | fire => simp [runOp, timer_fire, harm, hpend]
  | armT sec rep => simp [opSafe] at hop
  | cancelT =>
    refine ⟨rfl, ?_, rfl⟩
    simp [runOp, alarm_cancel, List.mem_filter]

theorem run_opSafe_no_alarm (ops : List Op) :
    ∀ s : EngineState, ops.all opSafe = true → s.timerArmed = false →
      SIGALRM_NUM ∉ s.pending →
      countAlarm (run ops s).raised = countAlarm s.raised := by
  induction ops with
  | nil => intro s _ _ _; rfl
  | cons op rest ih =>
    intro s hall harm hpend
    have hop : opSafe op = true := by
      simp only [List.all_cons, Bool.and_eq_true] at hall
      exact hall.1
    have hrest : rest.all opSafe = true := by
      simp only [List.all_cons, Bool.and_eq_true] at hall
      exact hall.2
    obtain ⟨h1, h2, h3⟩ := opSafe_preserves s op hop harm hpend
    rw [run_cons, ih (runOp s op) hrest h1 h2, h3]

end Cysignals

namespace Cysignals

instance (s : EngineState) : Decidable (wellFormed s) := by
  unfold wellFormed; infer_instance

instance (s : EngineState) : Decidable (logsWellNamed s) := by
  unfold logsWellNamed; infer_instance

theorem wf_head (l : List JumpPoint) (jp : JumpPoint) (rest : List JumpPoint)
    (h : l = jp :: rest) (hwf : ∀ i : Fin l.length, (l.get i).depth = l.length - i.val) :
    jp.depth = l.length := by
  subst h
  have := hwf ⟨0, by simp⟩
  simpa using this

end Cysignals

open PyStr Rundoctests Patchdistutils Cysignals

/-- C1: for every fatal fault signal delivered while no protected
region is open, the crash reporter creates exactly one new crash log,
whose rendered text contains the name of the signal and whose
backtrace field is non-empty, and the process then terminates through
the default disposition of that signal. -/
theorem c1_unprotected_fatal_crash (sig : Signal) (s : EngineState)
    (hcls : sig.cls = SigClass.fatal) (hr : s.regions = []) (ht : s.terminated = none) :
    ∃ log : CrashLog,
      (deliver sig s).crashLogs = s.crashLogs ++ [log] ∧
      log.signame = sig.name ∧
      PyStr.occursIn sig.name (renderCrashLog log) ∧
      log.backtrace ≠ "" ∧
      (deliver sig s).terminated = some (TerminationKind.bySignal sig.num) := by
  have hdel : deliver sig s = crashAndTerminate sig s := by
    simp [deliver, ht, hr, hcls]
  refine ⟨{ fileName := mkCrashName s.pid s.crashLogs.length, pid := s.pid,
            signame := sig.name, signum := sig.num, timestamp := isoTimestamp s.clock,
            backtrace := backtraceFor sig }, ?_, rfl, ?_, ?_, ?_⟩
  · rw [hdel]; rfl
  · refine PyStr.occursIn_of_eq sig.name _
      ("Process ".data ++ ((Nat.repr s.pid ++ "\n").data ++ "Signal ".data))
      ((" number " ++ (Nat.repr sig.num ++ "\n")).data
        ++ ((isoTimestamp s.clock ++ "\n").data ++ (backtraceFor sig).data)) ?_
    simp [renderCrashLog, processField, signalField, timeField, String.data_append,
      List.append_assoc]
  · intro hbt
    have hsplit : (backtraceFor sig).data
        = "Stack backtrace for ".data ++ (sig.name ++ " (best effort)").data := by
      simp [backtraceFor, String.data_append]
    have hbt2 : backtraceFor sig = "" := hbt
    rw [hbt2] at hsplit
    have h0 : (("" : String).data : List Char) = [] := rfl
    rw [h0] at hsplit
    have := (List.append_eq_nil.mp hsplit.symm).1
    exact absurd this (by decide)
  · rw [hdel]; rfl

/-- C2: cancelling an armed timeout disarms the timer and clears any
PendingEvent already recorded for its signal, so that along any
subsequent sequence of operations that does not re-arm the timer and
does not deliver the alarm signal from outside the timeout subsystem,
no alarm condition is ever raised: a cleared timeout is never later
observed as fired. -/
theorem c2_cancel_clears_pending (s : EngineState) (ops : List Op)
    (hall : ops.all opSafe = true) :
    SIGALRM_NUM ∉ (alarm_cancel s).pending ∧
    (alarm_cancel s).timerArmed = false ∧
    countAlarm (run ops (alarm_cancel s)).raised = countAlarm s.raised := by
  have hpend : SIGALRM_NUM ∉ (alarm_cancel s).pending := by
    simp [alarm_cancel, List.mem_filter]
  refine ⟨hpend, rfl, ?_⟩
  exact run_opSafe_no_alarm ops (alarm_cancel s) hall rfl hpend

/-- C3: a deferrable signal delivered twice while masked or while no
region is open coalesces into a single PendingEvent (the second
delivery leaves the state unchanged), and on the next entry into a
protected region exactly one condition for it is raised, never more
than one, and the pending slot is cleared. -/
theorem c3_deferred_coalesces_once (sig : Signal) (s : EngineState)
    (hcls : sig.cls = SigClass.deferrable) (ht : s.terminated = none)
    (hp : s.pending = []) (hcond : s.masked = true ∨ s.regions = []) :
    deliver sig (deliver sig s) = deliver sig s ∧
    (deliver sig s).pending = [sig.num] ∧
    (enter_region (deliver sig (deliver sig s))).1.raised = s.raised ++ [sig.num] ∧
    (enter_region (deliver sig (deliver sig s))).1.pending = [] := by
  have h1 : deliver sig s = { s with pending := [sig.num] } := by
    rcases hcond with hm | hr
    · cases hreg : s.regions with
      | nil => simp [deliver, ht, hreg, hcls, recordPending, hp]
      | cons jp rest => simp [deliver, ht, hreg, hm, hcls, recordPending, hp]
    · simp [deliver, ht, hr, hcls, recordPending, hp]
  have h2 : deliver sig (deliver sig s) = deliver sig s := by
    rw [h1]
    rcases hcond with hm | hr
    · cases hreg : s.regions with
      | nil => simp [deliver, ht, hreg, hcls, recordPending]
      | cons jp rest => simp [deliver, ht, hreg, hm, hcls, recordPending]
    · simp [deliver, ht, hr, hcls, recordPending]
  refine ⟨h2, by rw [h1], ?_, ?_⟩
  · rw [h2, h1]; simp [enter_region, ht]
  · rw [h2, h1]; simp [enter_region, ht]

/-- C4: for every nesting depth of at least one, a signal delivered
unmasked while that many regions are open jumps to the innermost
region, whose recorded depth equals the current depth, records the
cause in that JumpPoint, raises the corresponding condition, and
leaves the observable nesting depth exactly one less. -/
theorem c4_jump_to_innermost (sig : Signal) (s : EngineState) (jp : JumpPoint)
    (rest : List JumpPoint) (ht : s.terminated = none) (hm : s.masked = false)
    (hr : s.regions = jp :: rest) (hwf : wellFormed s) :
    current_depth (deliver sig s) = current_depth s - 1 ∧
    jp.depth = current_depth s ∧
    (deliver sig s).lastJump = some { depth := current_depth s, cause := some sig.num } ∧
    (deliver sig s).raised = s.raised ++ [sig.num] := by
  have hd : jp.depth = s.regions.length := wf_head s.regions jp rest hr hwf
  have hmask : ¬(s.masked = true ∧ sig.cls = SigClass.deferrable) := by
    rw [hm]; simp
  have hdel : deliver sig s = { s with regions := rest, lastJump := some { jp with cause := some sig.num }, raised := s.raised ++ [sig.num] } := by
    simp [deliver, ht, hr, hmask]
  refine ⟨?_, hd, ?_, ?_⟩
  · rw [hdel]; simp [current_depth, hr]
  · rw [hdel]
    simp only [current_depth]
    rw [← hd]
  · rw [hdel]

/-- C5: for every well-nested sequence of enter_region and exit_region
calls within the configured capacity, during which no signal is
delivered and no event is pending, running the sequence from an empty
RegionStack returns the RegionStack to empty, raises no condition,
and does not abort. -/
theorem c5_balanced_returns_empty (l : List ROp) (s : EngineState)
    (h : Nested s.capacity 0 l) (hp : s.pending = []) (ht : s.terminated = none)
    (hr : s.regions = []) :
    (runR l s).regions = [] ∧ (runR l s).raised = s.raised ∧
    (runR l s).terminated = none := by
  have hrun := nested_runR h s rfl hp ht (by rw [hr]; rfl)
  rw [hrun]
  exact ⟨hr, rfl, ht⟩

/-- C6: the crash-log directory comes from the CYSIGNALS_CRASH_LOGS
environment variable, defaulting to a standard temporary-files
location; each crash log is plain text with fields in order process
id, signal name and number, timestamp, backtrace block; and each
crash appends one new file under a name distinct from every file
written before, so no crash log is ever overwritten. -/
theorem c6_crashlog_format (env : String → Option String) (d : String) (log : CrashLog)
    (s : EngineState) (sig : Signal) (hnames : logsWellNamed s) :
    (env "CYSIGNALS_CRASH_LOGS" = some d → crashDir env = d) ∧
    (env "CYSIGNALS_CRASH_LOGS" = none → crashDir env = defaultTmpDir) ∧
    renderCrashLog log = processField log ++ signalField log ++ timeField log ++ log.backtrace ∧
    PyStr.occursIn (Nat.repr log.pid) (processField log) ∧
    PyStr.occursIn log.signame (signalField log) ∧
    PyStr.occursIn (Nat.repr log.signum) (signalField log) ∧
    timeField log = log.timestamp ++ "\n" ∧
    (crashAndTerminate sig s).crashLogs.map CrashLog.fileName
      = s.crashLogs.map CrashLog.fileName ++ [mkCrashName s.pid s.crashLogs.length] ∧
    mkCrashName s.pid s.crashLogs.length ∉ s.crashLogs.map CrashLog.fileName := by
  refine ⟨?_, ?_, rfl, ?_, ?_, ?_, rfl, ?_, crashName_fresh s hnames⟩
  · intro h; simp [crashDir, h]
  · intro h; simp [crashDir, h]
  · exact PyStr.occursIn_of_eq _ _ "Process ".data "\n".data
      (by simp [processField, String.data_append])
  · exact PyStr.occursIn_of_eq _ _ "Signal ".data
      (" number " ++ (Nat.repr log.signum ++ "\n")).data
      (by simp [signalField, String.data_append])
  · exact PyStr.occursIn_of_eq _ _ ("Signal ".data ++ (log.signame.data ++ " number ".data))
      "\n".data (by simp [signalField, String.data_append, List.append_assoc])
  · simp [crashAndTerminate]

/-- C7: exit_region with a token that is not the current top of a
non-empty RegionStack is a reported programming error (the process
aborts with a diagnostic) when the token denotes a region still below
the top, while a token whose region was already consumed by a
signal-triggered jump (a token above the top, or any token on an
empty stack) is silently a no-op. -/
theorem c7_exit_region_mismatch (s : EngineState) (tok : Nat) (ht : s.terminated = none) :
    (∀ jp rest, s.regions = jp :: rest → tok < jp.depth →
      exit_region tok s = abortState "exit_region: token is not the current top" s) ∧
    (∀ jp rest, s.regions = jp :: rest → jp.depth < tok → exit_region tok s = s) ∧
    (s.regions = [] → exit_region tok s = s) := by
  refine ⟨?_, ?_, ?_⟩
  · intro jp rest hr hlt
    have h1 : jp.depth ≠ tok := ne_of_gt hlt
    have h2 : ¬(jp.depth < tok) := by omega
    simp [exit_region, ht, hr, h1, h2]
  · intro jp rest hr hlt
    have h1 : jp.depth ≠ tok := ne_of_lt hlt
    simp [exit_region, ht, hr, h1, hlt]
  · intro hr
    simp [exit_region, ht, hr]

/-- C8: the doctest child process testfile in rundoctests.py
terminates with exit status 0 exactly when doctest.testfile reports
zero failures, and in every other case, including when the try body
raises, it terminates with exit status 23; the two outcomes are
mutually exclusive because the exit call from the try body bypasses
the finally clause. -/
theorem c8_testfile_exit (o : DoctestOutcome) :
    (testfile o = 0 ↔ o = DoctestOutcome.ok 0) ∧
    (o ≠ DoctestOutcome.ok 0 → testfile o = 23) ∧
    ¬(testfile o = 0 ∧ testfile o = 23) := by
  cases o with
  | ok f =>
    by_cases hf : f = 0
    · subst hf
      exact ⟨by simp [testfile, tryBodyExit], fun h => absurd rfl h,
        by simp [testfile, tryBodyExit]⟩
    · have h23 : testfile (DoctestOutcome.ok f) = 23 := by simp [testfile, tryBodyExit, hf]
      refine ⟨?_, fun _ => h23, ?_⟩
      · rw [h23]
        constructor
        · intro h; exact absurd h (by norm_num)
        · intro h; injection h with h2; exact absurd h2 hf
      · rw [h23]
        rintro ⟨h0, _⟩
        exact absurd h0 (by norm_num)
  | raised =>
    have h23 : testfile DoctestOutcome.raised = 23 := rfl
    refine ⟨?_, fun _ => h23, ?_⟩
    · rw [h23]
      constructor
      · intro h; exact absurd h (by norm_num)
      · intro h; exact absurd h (by simp)
    · rw [h23]
      rintro ⟨h0, _⟩
      exact absurd h0 (by norm_num)

/-- C9: SkipByOsDocTestParser rewrites the base options with exactly
one modification: on Windows a present SKIP_WINDOWS flag is removed
and its value transferred to SKIP, off Windows a present SKIP_POSIX
flag is removed and its value transferred to SKIP, and every other
option key keeps the value found by the base parser. -/
theorem c9_find_options_frame (isNT : Bool) (base : Nat → Option Bool) :
    (∀ k, k ≠ OPTIONFLAG_SKIP → k ≠ flag_skip_windows → k ≠ flag_skip_posix →
      find_options isNT base k = base k) ∧
    (isNT = true →
      find_options isNT base flag_skip_windows = none ∧
      find_options isNT base flag_skip_posix = base flag_skip_posix ∧
      (∀ v, base flag_skip_windows = some v →
        find_options isNT base OPTIONFLAG_SKIP = some v) ∧
      (base flag_skip_windows = none →
        find_options isNT base OPTIONFLAG_SKIP = base OPTIONFLAG_SKIP)) ∧
    (isNT = false →
      find_options isNT base flag_skip_posix = none ∧
      find_options isNT base flag_skip_windows = base flag_skip_windows ∧
      (∀ v, base flag_skip_posix = some v →
        find_options isNT base OPTIONFLAG_SKIP = some v) ∧
      (base flag_skip_posix = none →
        find_options isNT base OPTIONFLAG_SKIP = base OPTIONFLAG_SKIP)) := by
  have d1 : flag_skip_posix ≠ flag_skip_windows := by decide
  have d2 : flag_skip_windows ≠ flag_skip_posix := by decide
  have d3 : flag_skip_posix ≠ OPTIONFLAG_SKIP := by decide
  have d4 : OPTIONFLAG_SKIP ≠ flag_skip_posix := by decide
  have d5 : flag_skip_windows ≠ OPTIONFLAG_SKIP := by decide
  have d6 : OPTIONFLAG_SKIP ≠ flag_skip_windows := by decide
  cases isNT with
  | true =>
    refine ⟨?_, fun _ => ?_, fun h => absurd h (by decide)⟩
    · intro k h1 h2 h3
      cases hw : base flag_skip_windows with
      | none =>
        cases hp0 : base flag_skip_posix with
        | none => simp [find_options, hw, hp0]
        | some w => simp [find_options, hw, hp0]
      | some v =>
        cases hp0 : base flag_skip_posix with
        | none => simp [find_options, dictSet, dictDel, hw, hp0, d1, d3, h1, h2, h3]
        | some w => simp [find_options, dictSet, dictDel, hw, hp0, d1, d3, h1, h2, h3]
    · cases hw : base flag_skip_windows with
      | none =>
        cases hp0 : base flag_skip_posix with
        | none => refine ⟨?_, ?_, ?_, ?_⟩ <;> simp [find_options, hw, hp0]
        | some w => refine ⟨?_, ?_, ?_, ?_⟩ <;> simp [find_options, hw, hp0]
      | some v =>
        cases hp0 : base flag_skip_posix with
        | none =>
          refine ⟨?_, ?_, ?_, ?_⟩ <;>
            simp [find_options, dictSet, dictDel, hw, hp0, d1, d3, d5, d6]
        | some w =>
          refine ⟨?_, ?_, ?_, ?_⟩ <;>
            simp [find_options, dictSet, dictDel, hw, hp0, d1, d3, d5, d6]
  | false =>
    refine ⟨?_, fun h => absurd h (by decide), fun _ => ?_⟩
    · intro k h1 h2 h3
      cases hw : base flag_skip_windows with
      | none =>
        cases hp0 : base flag_skip_posix with
        | none => simp [find_options, hw, hp0]
        | some w => simp [find_options, dictSet, dictDel, hw, hp0, h1, h2, h3]
      | some v =>
        cases hp0 : base flag_skip_posix with
        | none => simp [find_options, hw, hp0]
        | some w => simp [find_options, dictSet, dictDel, hw, hp0, h1, h2, h3]
    · cases hw : base flag_skip_windows with
      | none =>
        cases hp0 : base flag_skip_posix with
        | none => refine ⟨?_, ?_, ?_, ?_⟩ <;> simp [find_options, hw, hp0]
        | some w =>
          refine ⟨?_, ?_, ?_, ?_⟩ <;>
            simp [find_options, dictSet, dictDel, hw, hp0, d2, d4, d5, d6]
      | some v =>
        cases hp0 : base flag_skip_posix with
        | none => refine ⟨?_, ?_, ?_, ?_⟩ <;> simp [find_options, hw, hp0]
        | some w =>
          refine ⟨?_, ?_, ?_, ?_⟩ <;>
            simp [find_options, dictSet, dictDel, hw, hp0, d2, d4, d5, d6]

/-- C10: get_msvcr returns the implicit None when sys.version does
not contain the substring MSC v., returns the documented
single-element msvcr library list for the version codes 1300, 1310,
1400, 1500, 1600, 1700 and 1800, returns the empty list for 1900,
and raises ValueError for every other version code. -/
theorem c10_get_msvcr_cases (version : List Char) :
    (PyStr.findSub mscNeedle version = none →
      get_msvcr version = MsvcrResult.retNone) ∧
    (∀ pos, PyStr.findSub mscNeedle version = some pos →
      (mscVerAt version pos = "1300" → get_msvcr version = MsvcrResult.libs ["msvcr70"]) ∧
      (mscVerAt version pos = "1310" → get_msvcr version = MsvcrResult.libs ["msvcr71"]) ∧
      (mscVerAt version pos = "1400" → get_msvcr version = MsvcrResult.libs ["msvcr80"]) ∧
      (mscVerAt version pos = "1500" → get_msvcr version = MsvcrResult.libs ["msvcr90"]) ∧
      (mscVerAt version pos = "1600" → get_msvcr version = MsvcrResult.libs ["msvcr100"]) ∧
      (mscVerAt version pos = "1700" → get_msvcr version = MsvcrResult.libs ["msvcr110"]) ∧
      (mscVerAt version pos = "1800" → get_msvcr version = MsvcrResult.libs ["msvcr120"]) ∧
      (mscVerAt version pos = "1900" → get_msvcr version = MsvcrResult.libs []) ∧
      (mscVerAt version pos ∉
          (["1300", "1310", "1400", "1500", "1600", "1700", "1800", "1900"] : List String) →
        get_msvcr version = MsvcrResult.valueError (mscVerAt version pos))) := by
  constructor
  · intro h
    simp [get_msvcr, h]
  · intro pos hpos
    refine ⟨?_, ?_, ?_, ?_, ?_, ?_, ?_, ?_, ?_⟩
    · intro hv; simp [get_msvcr, hpos, hv]
    · intro hv; simp [get_msvcr, hpos, hv]
    · intro hv; simp [get_msvcr, hpos, hv]
    · intro hv; simp [get_msvcr, hpos, hv]
    · intro hv; simp [get_msvcr, hpos, hv]
    · intro hv; simp [get_msvcr, hpos, hv]
    · intro hv; simp [get_msvcr, hpos, hv]
    · intro hv; simp [get_msvcr, hpos, hv]
    · intro hv
      have n1 : mscVerAt version pos ≠ "1300" := fun h => hv (by rw [h]; simp)
      have n2 : mscVerAt version pos ≠ "1310" := fun h => hv (by rw [h]; simp)
      have n3 : mscVerAt version pos ≠ "1400" := fun h => hv (by rw [h]; simp)
      have n4 : mscVerAt version pos ≠ "1500" := fun h => hv (by rw [h]; simp)
      have n5 : mscVerAt version pos ≠ "1600" := fun h => hv (by rw [h]; simp)
      have n6 : mscVerAt version pos ≠ "1700" := fun h => hv (by rw [h]; simp)
      have n7 : mscVerAt version pos ≠ "1800" := fun h => hv (by rw [h]; simp)
      have n8 : mscVerAt version pos ≠ "1900" := fun h => hv (by rw [h]; simp)
      simp [get_msvcr, hpos, n1, n2, n3, n4, n5, n6, n7, n8]

/-- Concrete idle engine state used to evaluate the theorems. -/
def sampleState : EngineState := { capacity := 8, regions := [], pending := [], masked := false, timerArmed := false, repeatTimer := false, crashLogs := [], raised := [], lastJump := none, terminated := none, pid := 42, clock := 5 }

/-- Concrete engine state with one open region. -/
def sampleState1 : EngineState := { sampleState with regions := [{ depth := 1, cause := none }] }

/-- Concrete engine state with an armed timer and a pending alarm. -/
def sampleAlarmState : EngineState := { sampleState with timerArmed := true, pending := [SIGALRM_NUM] }

/-- Concrete fatal fault signal. -/
def sigsegv : Signal := { num := 11, name := "SIGSEGV", cls := SigClass.fatal }

/-- Concrete deferrable signal. -/
def sigchld : Signal := { num := 17, name := "SIGCHLD", cls := SigClass.deferrable }

/-- Concrete crash log record. -/
def sampleLog : CrashLog := { fileName := mkCrashName 42 0, pid := 42, signame := "SIGSEGV", signum := 11, timestamp := isoTimestamp 5, backtrace := backtraceFor sigsegv }

/-- Concrete environment with the crash-log directory configured. -/
def sampleEnv : String → Option String :=
  fun k => if k = "CYSIGNALS_CRASH_LOGS" then some "/var/crash" else none

/-- Evaluation of the C1 theorem at a concrete fatal fault and state. -/
theorem c1_witness :
    (deliver sigsegv sampleState).terminated = some (TerminationKind.bySignal sigsegv.num) := by
  obtain ⟨log, h1, h2, h3, h4, h5⟩ := c1_unprotected_fatal_crash sigsegv sampleState rfl rfl rfl
  exact h5

/-- Evaluation of the C2 theorem at a concrete state and trace. -/
theorem c2_witness :
    SIGALRM_NUM ∉ (alarm_cancel sampleAlarmState).pending ∧
    (alarm_cancel sampleAlarmState).timerArmed = false ∧
    countAlarm (run [Op.enter, Op.fire, Op.cancelT] (alarm_cancel sampleAlarmState)).raised
      = countAlarm sampleAlarmState.raised :=
  c2_cancel_clears_pending sampleAlarmState [Op.enter, Op.fire, Op.cancelT] (by decide)

/-- Evaluation of the C3 theorem at a concrete deferrable signal. -/
theorem c3_witness :
    deliver sigchld (deliver sigchld sampleState) = deliver sigchld sampleState ∧
    (deliver sigchld sampleState).pending = [sigchld.num] ∧
    (enter_region (deliver sigchld (deliver sigchld sampleState))).1.raised
      = sampleState.raised ++ [sigchld.num] ∧
    (enter_region (deliver sigchld (deliver sigchld sampleState))).1.pending = [] :=
  c3_deferred_coalesces_once sigchld sampleState rfl rfl rfl (Or.inr rfl)

/-- Evaluation of the C4 theorem at depth one. -/
theorem c4_witness :
    current_depth (deliver sigchld sampleState1) = current_depth sampleState1 - 1 ∧
    ({ depth := 1, cause := none } : JumpPoint).depth = current_depth sampleState1 ∧
    (deliver sigchld sampleState1).lastJump
      = some { depth := current_depth sampleState1, cause := some sigchld.num } ∧
    (deliver sigchld sampleState1).raised = sampleState1.raised ++ [sigchld.num] :=
  c4_jump_to_innermost sigchld sampleState1 { depth := 1, cause := none } [] rfl rfl rfl
    (by decide)

/-- Evaluation of the C5 theorem at a concrete balanced sequence. -/
theorem c5_witness :
    (runR [ROp.enter, ROp.exitR 1] sampleState).regions = [] ∧
    (runR [ROp.enter, ROp.exitR 1] sampleState).raised = sampleState.raised ∧
    (runR [ROp.enter, ROp.exitR 1] sampleState).terminated = none :=
  c5_balanced_returns_empty [ROp.enter, ROp.exitR 1] sampleState
    (Nested.wrap 0 [] (by decide) (Nested.nil 1)) rfl rfl rfl

/-- Evaluation of the C6 theorem at a concrete environment, log and
state. -/
theorem c6_witness :
    crashDir sampleEnv = "/var/crash" ∧
    renderCrashLog sampleLog
      = processField sampleLog ++ signalField sampleLog ++ timeField sampleLog
        ++ sampleLog.backtrace ∧
    PyStr.occursIn sampleLog.signame (signalField sampleLog) ∧
    mkCrashName sampleState.pid sampleState.crashLogs.length
      ∉ sampleState.crashLogs.map CrashLog.fileName := by
  obtain ⟨h1, h2, h3, h4, h5, h6, h7, h8, h9⟩ :=
    c6_crashlog_format sampleEnv "/var/crash" sampleLog sampleState sigsegv (by decide)
  exact ⟨h1 (by decide), h3, h5, h9⟩

/-- Evaluation of the C7 theorem: a token above the top is a no-op. -/
theorem c7_witness : exit_region 2 sampleState1 = sampleState1 :=
  (c7_exit_region_mismatch sampleState1 2 rfl).2.1 { depth := 1, cause := none } [] rfl
    (by decide)

/-- Evaluation of the C8 theorem at a failing doctest run. -/
theorem c8_witness : testfile (DoctestOutcome.ok 3) = 23 :=
  (c8_testfile_exit (DoctestOutcome.ok 3)).2.1 (by decide)

/-- Concrete base options: SKIP_WINDOWS enabled, SKIP disabled. -/
def sampleOptions : Nat → Option Bool :=
  fun k => if k = flag_skip_windows then some true
    else if k = OPTIONFLAG_SKIP then some false else none

/-- Evaluation of the C9 theorem on Windows with SKIP_WINDOWS set. -/
theorem c9_witness :
    find_options true sampleOptions flag_skip_windows = none ∧
    find_options true sampleOptions OPTIONFLAG_SKIP = some true ∧
    find_options true sampleOptions 3 = sampleOptions 3 := by
  refine ⟨((c9_find_options_frame true sampleOptions).2.1 rfl).1, ?_, ?_⟩
  · exact ((c9_find_options_frame true sampleOptions).2.1 rfl).2.2.1 true (by decide)
  · exact (c9_find_options_frame true sampleOptions).1 3 (by decide) (by decide) (by decide)

/-- Concrete sys.version string carrying the 1900 compiler code. -/
def msvcVersion : List Char := "py MSC v.1900 64 bit".data

/-- Evaluation of the C10 theorem at the 1900 version code. -/
theorem c10_witness : get_msvcr msvcVersion = MsvcrResult.libs [] :=
  ((c10_get_msvcr_cases msvcVersion).2 3 (by decide)).2.2.2.2.2.2.2.1 (by decide)
